import Mathlib

/-!
Verification development for the back-in-stock customer proxy (`src/main.py`).

The script exposes one endpoint that, given an email, a raw comma-separated
tag string and an optional note, normalizes the tags (resolving product-variant
references through a remote lookup) and then either updates an existing remote
customer (tag merge + forced SUBSCRIBED consent) or creates a new one.

The embedding below models:
  * the Python string manipulation used by `normalize_tags` (split on commas,
    strip, the two regexes `GID_RX` and `NUM_RX`, `dict.fromkeys` dedup),
  * the `gql` HTTP wrapper as a pure function from the HTTP outcome to the
    raised/returned result,
  * the orchestration in `back_in_stock` as a function parameterized by a
    remote directory (state-passing handlers for each distinct remote call),
    threading an explicit trace of the outbound calls,
  * a mock in-memory remote directory (the "mock remote service" of the
    spec's testable properties) used for the two-calls-in-a-row property.

All definitions are computable and decidable so that concrete runs evaluate.
-/

namespace BIS

/-- Characters removed by Python `str.strip()` (the ASCII whitespace set). -/
def pyIsSpace (c : Char) : Bool :=
  c = ' ' || c = '\t' || c = '\n' || c = '\r' || c = '\x0b' || c = '\x0c'

/-- Drop leading and trailing whitespace from a character list. -/
def stripChars (cs : List Char) : List Char :=
  ((cs.dropWhile pyIsSpace).reverse.dropWhile pyIsSpace).reverse

/-- Python `s.strip()`. -/
def pyStrip (s : String) : String := ⟨stripChars s.data⟩

/-- Helper for splitting a character list on a separator character. -/
def splitSepAux (sep : Char) : List Char → List Char → List (List Char)
  | [], acc => [acc.reverse]
  | c :: rest, acc =>
    if c = sep then acc.reverse :: splitSepAux sep rest []
    else splitSepAux sep rest (c :: acc)

/-- Python `s.split(sep)` for a one-character separator. -/
def pySplit (sep : Char) (s : String) : List String :=
  (splitSepAux sep s.data []).map (fun cs => ⟨cs⟩)

/-- The comma-separated segments of the raw tag string:
`[x.strip() for x in raw.split(",") if x.strip()]` in `normalize_tags`. -/
def pySegs (raw : String) : List String :=
  ((pySplit ',' raw).map pyStrip).filter (fun t => t != "")

/-- `NUM_RX.fullmatch`, i.e. the regex `^\d+$`. -/
def numFullmatch (s : String) : Bool :=
  !s.data.isEmpty && s.data.all Char.isDigit

/-- The characters of the fixed variant-resource path used by `GID_RX`
and by the bare-numeric rewrite. -/
def gidHead : List Char := "gid://shopify/ProductVariant/".data

/-- Strip an expected head run of characters, returning the remainder when
the whole head is present. -/
def dropHead : List Char → List Char → Option (List Char)
  | [], cs => some cs
  | _ :: _, [] => none
  | p :: ps, c :: cs => if c = p then dropHead ps cs else none

/-- `GID_RX.fullmatch`, i.e. the regex `^gid://shopify/ProductVariant/(\d+)$`. -/
def gidFullmatch (s : String) : Bool :=
  match dropHead gidHead s.data with
  | some rest => !rest.isEmpty && rest.all Char.isDigit
  | none => false

/-- `list(dict.fromkeys(result))`: deduplicate keeping first occurrences. -/
def dedupFirst (seen : List String) : List String → List String
  | [] => []
  | x :: xs =>
    if seen.contains x then dedupFirst seen xs
    else x :: dedupFirst (x :: seen) xs

/-- The single pass of the `normalize_tags` loop over the segments: literal
tags are collected in order, and the variant GIDs to resolve (a bare numeric
segment is rewritten to the fully-qualified form) are collected in order. -/
def splitGids : List String → List String × List String
  | [] => ([], [])
  | t :: rest =>
    let p := splitGids rest
    if gidFullmatch t then (p.1, t :: p.2)
    else if numFullmatch t then (p.1, ("gid://shopify/ProductVariant/" ++ t) :: p.2)
    else (t :: p.1, p.2)

/-- Python truthiness of the optional `note` field (`if p.note:`):
`None` and the empty string are falsy. -/
def pyTruthy : Option String → Bool
  | none => false
  | some s => s != ""

/-- The `tags` field validator `Payload.tags_must_not_be_empty`: rejects a
tag string that is empty after stripping. -/
def tags_must_not_be_empty (v : String) : Except String String :=
  if pyStrip v = "" then Except.error "tags får inte vara tomt" else Except.ok v

/-! ### The `gql` HTTP wrapper -/

/-- The decoded JSON body of a GraphQL HTTP response, as far as `gql`
inspects it: the value under the key `"errors"` when that key is present
(a list of error objects, each recorded by the value its `.get("message")`
would return), plus an opaque stand-in for the rest of the document. -/
structure GqlBody where
  errorsKey : Option (List (Option String))
  rest : Nat
  deriving DecidableEq, Repr

/-- An HTTP response as `gql` sees it: status code, decoded body, raw text. -/
structure PyResponse where
  status : Nat
  body : GqlBody
  text : String
  deriving DecidableEq, Repr

/-- The outcome of the one outbound `httpx` POST inside `gql`. -/
inductive HttpOutcome where
  | timeout
  | requestError (msg : String)
  | response (r : PyResponse)
  deriving DecidableEq, Repr

/-- What the `gql` helper does with an HTTP outcome. Each failure constructor
corresponds to one raise site in the source:
  * `apiError`      — `HTTPException(500, "Shopify API error {status}: {text}")`
                      when `r.status_code != 200`;
  * `graphqlError`  — `HTTPException(500, "GraphQL error: {msg}")` when the
                      body has a non-empty `errors` array;
  * `timedOut`      — `HTTPException(500, "Request to Shopify API timed out")`;
  * `requestFailed` — `HTTPException(500, "Request error: {exc}")`;
  * `indexErrorCrash` — the uncaught `IndexError` raised by
                      `data["errors"][0]` when the `errors` key holds an
                      empty array (not an `HTTPException`; it escapes `gql`). -/
inductive GqlResult where
  | ok (body : GqlBody)
  | apiError (status : Nat) (text : String)
  | graphqlError (msg : String)
  | timedOut
  | requestFailed (msg : String)
  | indexErrorCrash
  deriving DecidableEq, Repr

/-- The `gql` helper of `src/main.py`, as a function of the HTTP outcome. -/
def gql : HttpOutcome → GqlResult
  | HttpOutcome.timeout => GqlResult.timedOut
  | HttpOutcome.requestError m => GqlResult.requestFailed m
  | HttpOutcome.response r =>
    if r.status ≠ 200 then GqlResult.apiError r.status r.text
    else
      match r.body.errorsKey with
      | none => GqlResult.ok r.body
      | some [] => GqlResult.indexErrorCrash
      | some (e :: _) => GqlResult.graphqlError (e.getD "?")

/-- A `gql` result that is a rejected call: the remote returned a bad status
or a GraphQL `errors` envelope (`RemoteRejected` in the spec's taxonomy). -/
def GqlResult.isRejected : GqlResult → Bool
  | GqlResult.apiError _ _ => true
  | GqlResult.graphqlError _ => true
  | _ => false

/-- A `gql` result that is a success (the decoded body is returned). -/
def GqlResult.isOk : GqlResult → Bool
  | GqlResult.ok _ => true
  | _ => false

/-! ### The orchestrator (`back_in_stock`) -/

/-- The constant consent block `EMAIL_CONSENT_SUBSCRIBED`. -/
structure Consent where
  marketingState : String
  marketingOptInLevel : String
  deriving DecidableEq, Repr

def EMAIL_CONSENT_SUBSCRIBED : Consent :=
  { marketingState := "SUBSCRIBED", marketingOptInLevel := "SINGLE_OPT_IN" }

/-- The inbound payload (after FastAPI/Pydantic parsing). -/
structure Payload where
  email : String
  tags : String
  note : Option String
  deriving DecidableEq, Repr

/-- The input dict of the `customerCreate` mutation.  `note` is `some`
exactly when the source added the key (`if p.note:`). -/
structure CreateInput where
  email : String
  tags : List String
  note : Option String
  consent : Consent
  deriving DecidableEq, Repr

/-- Every raised error of the endpoint, one constructor per raise site,
carrying the data interpolated into the `HTTPException` detail. -/
inductive Err where
  | gqlApiError (status : Nat) (text : String)
  | gqlGraphqlError (msg : String)
  | gqlTimedOut
  | gqlRequestFailed (msg : String)
  | gqlIndexErrorCrash
  | invalidVariant (gid : String)
  | consentFailed (msg : String)
  | createFailed (msg : String)
  deriving DecidableEq, Repr

/-- The HTTP status of the `HTTPException` each error is raised with (the
uncaught `IndexError` is converted to a 500 by the outer handler). -/
def Err.status : Err → Nat
  | Err.invalidVariant _ => 400
  | _ => 500

/-- The detail string of the corresponding `HTTPException`. -/
def Err.detail : Err → String
  | Err.gqlApiError s t => "Shopify API error " ++ toString s ++ ": " ++ t
  | Err.gqlGraphqlError m => "GraphQL error: " ++ m
  | Err.gqlTimedOut => "Request to Shopify API timed out"
  | Err.gqlRequestFailed m => "Request error: " ++ m
  | Err.gqlIndexErrorCrash => "Unexpected error: list index out of range"
  | Err.invalidVariant g => "Ogiltig variant‑GID: " ++ g
  | Err.consentFailed m => "Email consent update failed: " ++ m
  | Err.createFailed m => "Customer create failed: " ++ m

/-- One outbound remote call, as recorded in the trace. -/
inductive MCall where
  | nodeQuery (gid : String)
  | customerSearch (q : String)
  | tagsAdd (id : String) (tags : List String)
  | consentUpdate (id : String) (consent : Consent)
  | customerCreate (input : CreateInput)
  deriving DecidableEq, Repr

def MCall.isNode : MCall → Bool
  | MCall.nodeQuery _ => true
  | _ => false

def MCall.isTagsAdd : MCall → Bool
  | MCall.tagsAdd _ _ => true
  | _ => false

def MCall.isCreate : MCall → Bool
  | MCall.customerCreate _ => true
  | _ => false

/-- A customer mutation: `tagsAdd`, consent update or `customerCreate`
(the node query and the customer search are reads). -/
def MCall.isCustomerMutation : MCall → Bool
  | MCall.tagsAdd _ _ => true
  | MCall.consentUpdate _ _ => true
  | MCall.customerCreate _ => true
  | _ => false

/-- A remote directory: one state-passing handler per distinct remote call
the script makes, each standing for `gql` on that query plus the source's
field extraction from the decoded body:
  * `node`          — the variant node query of `build_backin_tag`;
                      result is the owning product's handle, `none` when the
                      response's `node` is null;
  * `search`        — `customers(first: 1, query: …)`; result is the list of
                      edge node ids;
  * `tagsAdd`       — the tag-merge mutation; result is the `userErrors`
                      message list;
  * `consentUpdate` — the consent mutation; result is the `userErrors`
                      message list;
  * `create`        — `customerCreate`; result is the `userErrors` message
                      list together with the returned customer id.
An `Except.error` stands for the call raising (a `gql`-level failure). -/
structure Remote (σ : Type) where
  node : σ → String → σ × Except Err (Option String)
  search : σ → String → σ × Except Err (List String)
  tagsAdd : σ → String → List String → σ × Except Err (List String)
  consentUpdate : σ → String → σ × Except Err (List String)
  create : σ → CreateInput → σ × Except Err (List String × String)

/-- The result value of the endpoint on success. -/
inductive UpsertResult where
  | updated (customer_id : String)
  | created (customer_id : String)
  deriving DecidableEq, Repr

/-- `build_backin_tag`: resolve a variant GID to the derived tag
`backin|<handle>|<id>` where `<id>` is `variant_gid.split("/")[-1]`. -/
def build_backin_tag {σ : Type} (R : Remote σ) (s : σ) (tr : List MCall)
    (variant_gid : String) : σ × List MCall × Except Err String :=
  match R.node s variant_gid with
  | (s', Except.error e) =>
    (s', tr ++ [MCall.nodeQuery variant_gid], Except.error e)
  | (s', Except.ok none) =>
    (s', tr ++ [MCall.nodeQuery variant_gid],
      Except.error (Err.invalidVariant variant_gid))
  | (s', Except.ok (some handle)) =>
    (s', tr ++ [MCall.nodeQuery variant_gid], Except.ok
      ("backin|" ++ handle ++ "|" ++ ((pySplit '/' variant_gid).getLastD "")))

/-- Await the resolution tasks in creation order (`for task in tasks:
result.append(await task)`), collecting the derived tags. -/
def resolve_all {σ : Type} (R : Remote σ) (s : σ) (tr : List MCall) :
    List String → σ × List MCall × Except Err (List String)
  | [] => (s, tr, Except.ok [])
  | g :: gs =>
    match build_backin_tag R s tr g with
    | (s', tr', Except.error e) => (s', tr', Except.error e)
    | (s', tr', Except.ok tag) =>
      match resolve_all R s' tr' gs with
      | (s'', tr'', Except.error e) => (s'', tr'', Except.error e)
      | (s'', tr'', Except.ok tags) => (s'', tr'', Except.ok (tag :: tags))

/-- `normalize_tags`: classify the segments, resolve the variant references,
put literals before resolved tags, and deduplicate keeping first occurrences. -/
def normalize_tags {σ : Type} (R : Remote σ) (s : σ) (tr : List MCall)
    (raw : String) : σ × List MCall × Except Err (List String) :=
  match resolve_all R s tr (splitGids (pySegs raw)).2 with
  | (s', tr', Except.error e) => (s', tr', Except.error e)
  | (s', tr', Except.ok resolved) =>
    (s', tr', Except.ok (dedupFirst [] ((splitGids (pySegs raw)).1 ++ resolved)))

/-- Step (a) of the found-customer branch: `if tags: await gql(tagsAdd …)`.
The mutation is skipped when `tags` is empty; when it runs, its response
value — `userErrors` included — is discarded without inspection. -/
def tags_add_step {σ : Type} (R : Remote σ) (s : σ) (tr : List MCall)
    (cid : String) (tags : List String) : σ × List MCall × Except Err Unit :=
  if tags.isEmpty then (s, tr, Except.ok ())
  else
    match R.tagsAdd s cid tags with
    | (s', Except.error e) => (s', tr ++ [MCall.tagsAdd cid tags], Except.error e)
    | (s', Except.ok _) => (s', tr ++ [MCall.tagsAdd cid tags], Except.ok ())

/-- The found-customer branch (`if edges:` in `back_in_stock`): optional tag
merge, then the consent mutation, whose `userErrors` are checked. -/
def update_branch {σ : Type} (R : Remote σ) (s : σ) (tr : List MCall)
    (cid : String) (tags : List String) : σ × List MCall × Except Err UpsertResult :=
  match tags_add_step R s tr cid tags with
  | (s', tr', Except.error e) => (s', tr', Except.error e)
  | (s', tr', Except.ok _) =>
    match R.consentUpdate s' cid with
    | (s'', Except.error e) =>
      (s'', tr' ++ [MCall.consentUpdate cid EMAIL_CONSENT_SUBSCRIBED], Except.error e)
    | (s'', Except.ok []) =>
      (s'', tr' ++ [MCall.consentUpdate cid EMAIL_CONSENT_SUBSCRIBED],
        Except.ok (UpsertResult.updated cid))
    | (s'', Except.ok (m :: _)) =>
      (s'', tr' ++ [MCall.consentUpdate cid EMAIL_CONSENT_SUBSCRIBED],
        Except.error (Err.consentFailed m))

/-- The new-customer branch: build `cust_input` (the `note` key is added only
when `p.note` is truthy), issue `customerCreate`, check its `userErrors`,
and read the created id from the response. -/
def create_branch {σ : Type} (R : Remote σ) (s : σ) (tr : List MCall)
    (p : Payload) (tags : List String) : σ × List MCall × Except Err UpsertResult :=
  let cust_input : CreateInput :=
    { email := p.email, tags := tags
      note := if pyTruthy p.note then p.note else none
      consent := EMAIL_CONSENT_SUBSCRIBED }
  match R.create s cust_input with
  | (s', Except.error e) =>
    (s', tr ++ [MCall.customerCreate cust_input], Except.error e)
  | (s', Except.ok (m :: _, _)) =>
    (s', tr ++ [MCall.customerCreate cust_input], Except.error (Err.createFailed m))
  | (s', Except.ok ([], cid)) =>
    (s', tr ++ [MCall.customerCreate cust_input], Except.ok (UpsertResult.created cid))

/-- The endpoint handler `back_in_stock`: normalize the tags, look the
customer up by email, then update or create. -/
def back_in_stock {σ : Type} (R : Remote σ) (s : σ) (p : Payload) :
    σ × List MCall × Except Err UpsertResult :=
  match normalize_tags R s [] p.tags with
  | (s₁, tr₁, Except.error e) => (s₁, tr₁, Except.error e)
  | (s₁, tr₁, Except.ok tags) =>
    match R.search s₁ ("email:" ++ p.email) with
    | (s₂, Except.error e) =>
      (s₂, tr₁ ++ [MCall.customerSearch ("email:" ++ p.email)], Except.error e)
    | (s₂, Except.ok []) =>
      create_branch R s₂ (tr₁ ++ [MCall.customerSearch ("email:" ++ p.email)]) p tags
    | (s₂, Except.ok (cid :: _)) =>
      update_branch R s₂ (tr₁ ++ [MCall.customerSearch ("email:" ++ p.email)]) cid tags

/-- Shorthand for the bare-numeric rewrite of `normalize_tags`. -/
def gidOf (d : String) : String := "gid://shopify/ProductVariant/" ++ d

/-! ### Concrete remotes used for witnesses and counterexamples -/

/-- A stateless remote with no customer matching any email; creates succeed. -/
def RemoteMiss : Remote Unit where
  node := fun _ _ => ((), Except.ok (some "widget"))
  search := fun _ _ => ((), Except.ok [])
  tagsAdd := fun _ _ _ => ((), Except.ok [])
  consentUpdate := fun _ _ => ((), Except.ok [])
  create := fun _ _ => ((), Except.ok ([], "gid://shopify/Customer/7"))

/-- Like `RemoteMiss`, but `customerCreate` reports a `userErrors` entry. -/
def RemoteMissCreateErr : Remote Unit where
  node := fun _ _ => ((), Except.ok (some "widget"))
  search := fun _ _ => ((), Except.ok [])
  tagsAdd := fun _ _ _ => ((), Except.ok [])
  consentUpdate := fun _ _ => ((), Except.ok [])
  create := fun _ _ =>
    ((), Except.ok (["Email has already been taken"], "gid://shopify/Customer/7"))

/-- A stateless remote where the email lookup finds an existing customer and
every mutation succeeds with no `userErrors`. -/
def RemoteFound : Remote Unit where
  node := fun _ _ => ((), Except.ok (some "widget"))
  search := fun _ _ => ((), Except.ok ["gid://shopify/Customer/1"])
  tagsAdd := fun _ _ _ => ((), Except.ok [])
  consentUpdate := fun _ _ => ((), Except.ok [])
  create := fun _ _ => ((), Except.ok ([], "gid://shopify/Customer/7"))

/-- Like `RemoteFound`, but the tag-merge mutation reports a `userErrors`
entry (and the consent mutation succeeds). -/
def RemoteFoundTagErr : Remote Unit where
  node := fun _ _ => ((), Except.ok (some "widget"))
  search := fun _ _ => ((), Except.ok ["gid://shopify/Customer/1"])
  tagsAdd := fun _ _ _ => ((), Except.ok ["tag boom"])
  consentUpdate := fun _ _ => ((), Except.ok [])
  create := fun _ _ => ((), Except.ok ([], "gid://shopify/Customer/7"))

/-- Like `RemoteFound`, but both the tag-merge and the consent mutations
report `userErrors` entries. -/
def RemoteFoundConsentErr : Remote Unit where
  node := fun _ _ => ((), Except.ok (some "widget"))
  search := fun _ _ => ((), Except.ok ["gid://shopify/Customer/1"])
  tagsAdd := fun _ _ _ => ((), Except.ok ["tag boom"])
  consentUpdate := fun _ _ => ((), Except.ok ["Customer is not eligible"])
  create := fun _ _ => ((), Except.ok ([], "gid://shopify/Customer/7"))

/-- A stateless remote whose variant node lookup returns a null node. -/
def RemoteNodeNone : Remote Unit where
  node := fun _ _ => ((), Except.ok none)
  search := fun _ _ => ((), Except.ok [])
  tagsAdd := fun _ _ _ => ((), Except.ok [])
  consentUpdate := fun _ _ => ((), Except.ok [])
  create := fun _ _ => ((), Except.ok ([], "gid://shopify/Customer/7"))

/-! ### A mock remote customer directory (the spec's "mock remote service")

Used to state the two-calls-in-a-row idempotence property: an in-memory
customer table plus a read-only variant catalog, with the semantics the spec
gives the remote API (search by exact email returning at most one match,
additive tag merge, consent overwrite, create with a fresh id). -/

/-- A remote customer record (id, email, tag set, marketing consent). -/
structure Customer where
  id : String
  email : String
  tags : List String
  consent : Consent
  deriving DecidableEq, Repr

/-- The state of the mock remote service: the customer table, a counter for
fresh customer ids, and the variant catalog (variant GID ↦ product handle). -/
structure World where
  customers : List Customer
  nextId : Nat
  catalog : List (String × String)
  deriving DecidableEq, Repr

/-- Additive tag merge: keeps every existing tag, appends the new ones. -/
def mergeTags (old new : List String) : List String :=
  old ++ new.filter (fun t => !(old.contains t))

/-- Apply the tag-merge mutation to one customer record when its id matches. -/
def setTags (cid : String) (tags : List String) (c : Customer) : Customer :=
  if c.id == cid then { c with tags := mergeTags c.tags tags } else c

/-- Apply the consent mutation to one customer record when its id matches. -/
def setConsent (cid : String) (c : Customer) : Customer :=
  if c.id == cid then { c with consent := EMAIL_CONSENT_SUBSCRIBED } else c

/-- The mock remote customer directory. -/
def Mock : Remote World where
  node := fun w gid => (w, Except.ok (w.catalog.lookup gid))
  search := fun w q =>
    (w, Except.ok
      (((w.customers.filter (fun c => ("email:" ++ c.email) == q)).map
          (fun c => c.id)).take 1))
  tagsAdd := fun w cid tags =>
    ({ w with customers := w.customers.map (setTags cid tags) }, Except.ok [])
  consentUpdate := fun w cid =>
    ({ w with customers := w.customers.map (setConsent cid) }, Except.ok [])
  create := fun w ci =>
    ({ w with
        customers := w.customers ++
          [⟨"gid://shopify/Customer/" ++ toString w.nextId, ci.email, ci.tags, ci.consent⟩]
        nextId := w.nextId + 1 },
      Except.ok ([], "gid://shopify/Customer/" ++ toString w.nextId))

/-- The first customer of the table whose email matches (what the mock
search, restricted to one result, is keyed on). -/
def firstByEmail (w : World) (e : String) : Option Customer :=
  w.customers.find? (fun c => c.email == e)

/-- The first customer with the given email exists and is subscribed with
the single-opt-in consent block. -/
def subscribedAt (w : World) (e : String) : Prop :=
  ∃ c, firstByEmail w e = some c ∧ c.consent = EMAIL_CONSENT_SUBSCRIBED

/-! ### Theorems -/

/-- `build_backin_tag` appends exactly one node query to the trace. -/
theorem build_backin_tag_trace {σ : Type} (R : Remote σ) (s : σ) (tr : List MCall)
    (g : String) :
    (build_backin_tag R s tr g).2.1 = tr ++ [MCall.nodeQuery g] := by
  unfold build_backin_tag
  rcases R.node s g with ⟨s', r⟩
  rcases r with e | o
  · rfl
  · rcases o with _ | h <;> rfl

/-- `resolve_all` only appends node queries to the trace. -/
theorem resolve_all_trace {σ : Type} (R : Remote σ) (gs : List String) :
    ∀ (s : σ) (tr : List MCall),
      ∃ ext, (resolve_all R s tr gs).2.1 = tr ++ ext ∧ ∀ c ∈ ext, c.isNode = true := by
  induction gs with
  | nil =>
    intro s tr
    exact ⟨[], by simp [resolve_all], by simp⟩
  | cons g gs ih =>
    intro s tr
    unfold resolve_all
    rcases hb : build_backin_tag R s tr g with ⟨s', tr', r⟩
    have htr' : tr' = tr ++ [MCall.nodeQuery g] := by
      have h := build_backin_tag_trace R s tr g
      rw [hb] at h
      exact h
    subst htr'
    cases r with
    | error e =>
      refine ⟨[MCall.nodeQuery g], by simp, ?_⟩
      intro c hc
      simp at hc
      simp [hc, MCall.isNode]
    | ok tag =>
      obtain ⟨ext, h1, h2⟩ := ih s' (tr ++ [MCall.nodeQuery g])
      rcases hr : resolve_all R s' (tr ++ [MCall.nodeQuery g]) gs with ⟨s'', tr'', r2⟩
      rw [hr] at h1
      simp only at h1
      refine ⟨MCall.nodeQuery g :: ext, ?_, ?_⟩
      · dsimp only
        rw [hr]
        cases r2 <;> simp [h1, List.append_assoc]
      · intro c hc
        rcases List.mem_cons.mp hc with hc | hc
        · simp [hc, MCall.isNode]
        · exact h2 c hc

/-- `normalize_tags` only appends node queries to the trace. -/
theorem normalize_tags_trace {σ : Type} (R : Remote σ) (s : σ) (tr : List MCall)
    (raw : String) :
    ∃ ext, (normalize_tags R s tr raw).2.1 = tr ++ ext ∧ ∀ c ∈ ext, c.isNode = true := by
  unfold normalize_tags
  obtain ⟨ext, h1, h2⟩ := resolve_all_trace R (splitGids (pySegs raw)).2 s tr
  rcases hr : resolve_all R s tr (splitGids (pySegs raw)).2 with ⟨s', tr', r⟩
  rw [hr] at h1
  simp only at h1
  cases r <;> exact ⟨ext, by simp [h1], h2⟩

/-- A node query is not a customer mutation (in particular not a tag merge
and not a create). -/
theorem isNode_not_mutation (c : MCall) (h : c.isNode = true) :
    c.isCustomerMutation = false ∧ c.isTagsAdd = false ∧ c.isCreate = false := by
  cases c <;> simp_all [MCall.isNode, MCall.isCustomerMutation, MCall.isTagsAdd, MCall.isCreate]

/-- Claim C9 counterexample: a 200 response whose body carries the `errors`
key with an *empty* array is not reported as a rejected call (nor as a
success) — evaluating `data["errors"][0]` raises an uncaught `IndexError`,
contradicting the claim that an empty errors array is reported as a
rejected call. -/
theorem gql_empty_errors_cex :
    gql (HttpOutcome.response ⟨200, ⟨some [], 0⟩, ""⟩) = GqlResult.indexErrorCrash ∧
    (gql (HttpOutcome.response ⟨200, ⟨some [], 0⟩, ""⟩)).isRejected = false ∧
    (gql (HttpOutcome.response ⟨200, ⟨some [], 0⟩, ""⟩)).isOk = false := by
  refine ⟨rfl, rfl, rfl⟩

/-- Claim C9 (amended): `gql` succeeds only when the HTTP status is exactly
200 and the decoded body has no `errors` key, returning the body unmodified;
any other status (other 2xx included) is reported as a rejected call, as is
a non-empty `errors` array (with the first error's message); a timeout and a
connection error are reported as distinct unavailability errors; but a
present-and-empty `errors` array raises an uncaught `IndexError` instead of
being reported as a rejected call. -/
theorem gql_characterization :
    (gql HttpOutcome.timeout = GqlResult.timedOut)
    ∧ (∀ m, gql (HttpOutcome.requestError m) = GqlResult.requestFailed m)
    ∧ (∀ r : PyResponse, r.status ≠ 200 →
        gql (HttpOutcome.response r) = GqlResult.apiError r.status r.text)
    ∧ (∀ r : PyResponse, r.status = 200 → r.body.errorsKey = none →
        gql (HttpOutcome.response r) = GqlResult.ok r.body)
    ∧ (∀ r : PyResponse, r.status = 200 → r.body.errorsKey = some [] →
        gql (HttpOutcome.response r) = GqlResult.indexErrorCrash)
    ∧ (∀ (r : PyResponse) (e : Option String) (es : List (Option String)),
        r.status = 200 → r.body.errorsKey = some (e :: es) →
        gql (HttpOutcome.response r) = GqlResult.graphqlError (e.getD "?"))
    ∧ (∀ (o : HttpOutcome) (b : GqlBody), gql o = GqlResult.ok b →
        ∃ r : PyResponse, o = HttpOutcome.response r ∧ r.status = 200 ∧
          r.body = b ∧ b.errorsKey = none) := by
  refine ⟨rfl, fun m => rfl, ?_, ?_, ?_, ?_, ?_⟩
  · intro r h
    simp [gql, h]
  · intro r h he
    simp [gql, h, he]
  · intro r h he
    simp [gql, h, he]
  · intro r e es h he
    simp [gql, h, he]
  · intro o b h
    cases o with
    | timeout => exact absurd h (by simp [gql])
    | requestError m => exact absurd h (by simp [gql])
    | response r =>
      refine ⟨r, rfl, ?_⟩
      by_cases hs : r.status = 200
      · cases he : r.body.errorsKey with
        | none =>
          simp [gql, hs, he] at h
          exact ⟨hs, h ▸ rfl, h ▸ he⟩
        | some l =>
          cases l with
          | nil => simp [gql, hs, he] at h
          | cons e es => simp [gql, hs, he] at h
      · simp [gql, hs] at h

/-- Claim C9 witness: the characterization applied at a concrete rejected
response (status 404) and at a concrete successful response. -/
theorem gql_characterization_witness :
    gql (HttpOutcome.response ⟨404, ⟨none, 5⟩, "not found"⟩) =
      GqlResult.apiError 404 "not found" ∧
    gql (HttpOutcome.response ⟨200, ⟨none, 5⟩, "ok"⟩) = GqlResult.ok ⟨none, 5⟩ := by
  constructor
  · exact gql_characterization.2.2.1 ⟨404, ⟨none, 5⟩, "not found"⟩ (by decide)
  · exact gql_characterization.2.2.2.1 ⟨200, ⟨none, 5⟩, "ok"⟩ rfl rfl

/-- Claim C1 counterexample: in the found-customer branch, the tag-merge
mutation's response carries a non-empty `userErrors` array (message
`"tag boom"`), yet the request does not fail — it returns `updated`.
The code never inspects the tag-merge response. -/
theorem tag_merge_errors_ignored_cex :
    RemoteFoundTagErr.tagsAdd () "gid://shopify/Customer/1" ["vip"] =
      ((), Except.ok ["tag boom"]) ∧
    (back_in_stock RemoteFoundTagErr () ⟨"kund@example.se", "vip", none⟩).2.2 =
      Except.ok (UpsertResult.updated "gid://shopify/Customer/1") :=
  ⟨rfl, rfl⟩

/-- Claim C1 (amended): in the found-customer branch, only the consent
mutation's `userErrors` are inspected: if that response carries a non-empty
`userErrors` array the request fails with the upstream-validation error
(HTTP 500, `consentFailed`) carrying the first error's message, and the
already-issued tag-merge call stays in the trace with no compensating call
after it; the tag-merge response's `userErrors`, whatever they are, are
discarded and the step succeeds. -/
theorem consent_errors_surface :
    (∀ (σ : Type) (R : Remote σ) (s : σ) (p : Payload)
        (s₁ s₂ s₃ s₄ : σ) (tr₁ tr₃ : List MCall) (tags : List String)
        (cid : String) (rest : List String) (m : String) (ms : List String),
      normalize_tags R s [] p.tags = (s₁, tr₁, Except.ok tags) →
      R.search s₁ ("email:" ++ p.email) = (s₂, Except.ok (cid :: rest)) →
      tags_add_step R s₂ (tr₁ ++ [MCall.customerSearch ("email:" ++ p.email)]) cid tags
          = (s₃, tr₃, Except.ok ()) →
      R.consentUpdate s₃ cid = (s₄, Except.ok (m :: ms)) →
      back_in_stock R s p =
        (s₄, tr₃ ++ [MCall.consentUpdate cid EMAIL_CONSENT_SUBSCRIBED],
          Except.error (Err.consentFailed m)) ∧
      (Err.consentFailed m).status = 500) ∧
    (∀ (σ : Type) (R : Remote σ) (s : σ) (tr : List MCall) (cid : String)
        (tags : List String) (s' : σ) (ue : List String),
      tags.isEmpty = false →
      R.tagsAdd s cid tags = (s', Except.ok ue) →
      tags_add_step R s tr cid tags =
        (s', tr ++ [MCall.tagsAdd cid tags], Except.ok ())) := by
  constructor
  · intro σ R s p s₁ s₂ s₃ s₄ tr₁ tr₃ tags cid rest m ms hn hs ht hc
    refine ⟨?_, rfl⟩
    unfold back_in_stock
    rw [hn]
    dsimp only
    rw [hs]
    dsimp only
    unfold update_branch
    rw [ht]
    dsimp only
    rw [hc]
  · intro σ R s tr cid tags s' ue hne ht
    unfold tags_add_step
    simp only [hne]
    rw [ht]
    rfl

/-- Claim C1 witness: the amended theorem applied at a concrete remote whose
tag-merge response reports `userErrors: ["tag boom"]` and whose consent
response reports `userErrors: ["Customer is not eligible"]`. -/
theorem consent_errors_surface_witness :
    back_in_stock RemoteFoundConsentErr () ⟨"kund@example.se", "vip", none⟩ =
      ((), [MCall.customerSearch "email:kund@example.se",
            MCall.tagsAdd "gid://shopify/Customer/1" ["vip"],
            MCall.consentUpdate "gid://shopify/Customer/1" EMAIL_CONSENT_SUBSCRIBED],
        Except.error (Err.consentFailed "Customer is not eligible")) :=
  (consent_errors_surface.1 Unit RemoteFoundConsentErr ()
    ⟨"kund@example.se", "vip", none⟩ () () () ()
    [] [MCall.customerSearch "email:kund@example.se",
        MCall.tagsAdd "gid://shopify/Customer/1" ["vip"]]
    ["vip"] "gid://shopify/Customer/1" [] "Customer is not eligible" []
    rfl rfl rfl rfl).1

/-- Claim C4: when the email lookup returns no customer, `back_in_stock`
issues exactly one create mutation and returns `created` with the id
contained in the create response. -/
theorem lookup_miss_creates :
    ∀ (σ : Type) (R : Remote σ) (s : σ) (p : Payload)
      (s₁ s₂ s₃ : σ) (tr₁ : List MCall) (tags : List String)
      (ci : CreateInput) (cid : String),
      normalize_tags R s [] p.tags = (s₁, tr₁, Except.ok tags) →
      R.search s₁ ("email:" ++ p.email) = (s₂, Except.ok []) →
      ci = ⟨p.email, tags, if pyTruthy p.note then p.note else none,
            EMAIL_CONSENT_SUBSCRIBED⟩ →
      R.create s₂ ci = (s₃, Except.ok ([], cid)) →
      back_in_stock R s p =
        (s₃, (tr₁ ++ [MCall.customerSearch ("email:" ++ p.email)]) ++
              [MCall.customerCreate ci],
          Except.ok (UpsertResult.created cid)) ∧
      (back_in_stock R s p).2.1.countP MCall.isCreate = 1 := by
  intro σ R s p s₁ s₂ s₃ tr₁ tags ci cid hn hs hci hc
  subst hci
  have hmain : back_in_stock R s p =
      (s₃, (tr₁ ++ [MCall.customerSearch ("email:" ++ p.email)]) ++
            [MCall.customerCreate
              ⟨p.email, tags, if pyTruthy p.note then p.note else none,
                EMAIL_CONSENT_SUBSCRIBED⟩],
        Except.ok (UpsertResult.created cid)) := by
    unfold back_in_stock
    rw [hn]
    dsimp only
    rw [hs]
    dsimp only
    unfold create_branch
    dsimp only
    rw [hc]
  refine ⟨hmain, ?_⟩
  rw [hmain]
  obtain ⟨ext, he, hnode⟩ := normalize_tags_trace R s [] p.tags
  rw [hn] at he
  simp only [List.nil_append] at he
  have h0 : tr₁.countP MCall.isCreate = 0 := by
    rw [List.countP_eq_zero]
    intro c hcmem
    have := (isNode_not_mutation c (hnode c (he ▸ hcmem))).2.2
    simp [this]
  simp [List.countP_append, h0, List.countP_cons, MCall.isCreate]

/-- Claim C4 witness: the theorem applied at a concrete remote with no
existing customer, whose create response returns id
`gid://shopify/Customer/7`. -/
theorem lookup_miss_creates_witness :
    back_in_stock RemoteMiss () ⟨"kund@example.se", "vip", none⟩ =
      ((), [MCall.customerSearch "email:kund@example.se",
            MCall.customerCreate
              ⟨"kund@example.se", ["vip"], none, EMAIL_CONSENT_SUBSCRIBED⟩],
        Except.ok (UpsertResult.created "gid://shopify/Customer/7")) ∧
    (back_in_stock RemoteMiss ()
        ⟨"kund@example.se", "vip", none⟩).2.1.countP MCall.isCreate = 1 :=
  lookup_miss_creates Unit RemoteMiss () ⟨"kund@example.se", "vip", none⟩
    () () () [] ["vip"]
    ⟨"kund@example.se", ["vip"], none, EMAIL_CONSENT_SUBSCRIBED⟩
    "gid://shopify/Customer/7" rfl rfl rfl rfl

/-- Claim C5: when the create mutation's response carries a non-empty
`userErrors` array, `back_in_stock` fails with the upstream-validation error
(`createFailed`, HTTP 500) carrying exactly the first reported message, and
no `created`/`updated` result is returned. -/
theorem create_errors_surface :
    ∀ (σ : Type) (R : Remote σ) (s : σ) (p : Payload)
      (s₁ s₂ s₃ : σ) (tr₁ : List MCall) (tags : List String)
      (ci : CreateInput) (m : String) (ms : List String) (cid0 : String),
      normalize_tags R s [] p.tags = (s₁, tr₁, Except.ok tags) →
      R.search s₁ ("email:" ++ p.email) = (s₂, Except.ok []) →
      ci = ⟨p.email, tags, if pyTruthy p.note then p.note else none,
            EMAIL_CONSENT_SUBSCRIBED⟩ →
      R.create s₂ ci = (s₃, Except.ok (m :: ms, cid0)) →
      back_in_stock R s p =
        (s₃, (tr₁ ++ [MCall.customerSearch ("email:" ++ p.email)]) ++
              [MCall.customerCreate ci],
          Except.error (Err.createFailed m)) ∧
      (∀ r, (back_in_stock R s p).2.2 ≠ Except.ok r) ∧
      (Err.createFailed m).status = 500 := by
  intro σ R s p s₁ s₂ s₃ tr₁ tags ci m ms cid0 hn hs hci hc
  subst hci
  have hmain : back_in_stock R s p =
      (s₃, (tr₁ ++ [MCall.customerSearch ("email:" ++ p.email)]) ++
            [MCall.customerCreate
              ⟨p.email, tags, if pyTruthy p.note then p.note else none,
                EMAIL_CONSENT_SUBSCRIBED⟩],
        Except.error (Err.createFailed m)) := by
    unfold back_in_stock
    rw [hn]
    dsimp only
    rw [hs]
    dsimp only
    unfold create_branch
    dsimp only
    rw [hc]
  refine ⟨hmain, ?_, rfl⟩
  intro r
  rw [hmain]
  simp

/-- Claim C5 witness: the theorem applied at a concrete remote whose create
response reports `userErrors: [{message: "Email has already been taken"}]`. -/
theorem create_errors_surface_witness :
    (back_in_stock RemoteMissCreateErr () ⟨"kund@example.se", "vip", none⟩).2.2 =
      Except.error (Err.createFailed "Email has already been taken") :=
  congrArg (fun t => t.2.2)
    (create_errors_surface Unit RemoteMissCreateErr ()
      ⟨"kund@example.se", "vip", none⟩ () () () [] ["vip"]
      ⟨"kund@example.se", ["vip"], none, EMAIL_CONSENT_SUBSCRIBED⟩
      "Email has already been taken" [] "gid://shopify/Customer/7"
      rfl rfl rfl rfl).1

/-- Splitting off the last element of an appended singleton. -/
theorem mem_snoc_elim {α : Type} {c x : α} {l : List α} (hc : c ∈ l ++ [x]) :
    c ∈ l ∨ c = x := by
  rcases List.mem_append.mp hc with h | h
  · exact Or.inl h
  · simp at h
    exact Or.inr h

/-- Claim C2 counterexample: a request whose raw tag string is empty or
whitespace-only is not valid — the payload validator
`tags_must_not_be_empty` rejects it. -/
theorem empty_tags_rejected_cex :
    tags_must_not_be_empty "" = Except.error "tags får inte vara tomt" ∧
    tags_must_not_be_empty "   " = Except.error "tags får inte vara tomt" :=
  ⟨rfl, rfl⟩

/-- Claim C2 (amended): `normalize_tags` on `""` and on `"   "` yields the
empty tag list (issuing no remote call), and a request whose normalized tag
set is empty issues no tag-merge mutation at all; however the payload
validator rejects a raw tag string that is empty or whitespace-only, so such
a request is invalid and never reaches the endpoint body. -/
theorem empty_tags_behaviour :
    (∀ (σ : Type) (R : Remote σ) (s : σ) (tr : List MCall),
      normalize_tags R s tr "" = (s, tr, Except.ok []) ∧
      normalize_tags R s tr "   " = (s, tr, Except.ok [])) ∧
    tags_must_not_be_empty "" = Except.error "tags får inte vara tomt" ∧
    tags_must_not_be_empty "   " = Except.error "tags får inte vara tomt" ∧
    (∀ (σ : Type) (R : Remote σ) (s : σ) (p : Payload) (s₁ : σ) (tr₁ : List MCall),
      normalize_tags R s [] p.tags = (s₁, tr₁, Except.ok []) →
      ∀ c ∈ (back_in_stock R s p).2.1, c.isTagsAdd = false) := by
  refine ⟨?_, rfl, rfl, ?_⟩
  · intro σ R s tr
    exact ⟨rfl, rfl⟩
  · intro σ R s p s₁ tr₁ hn c hc
    obtain ⟨ext, he, hnode⟩ := normalize_tags_trace R s [] p.tags
    rw [hn] at he
    simp only [List.nil_append] at he
    subst he
    have htr₁ : ∀ c ∈ tr₁, c.isTagsAdd = false :=
      fun c hcm => (isNode_not_mutation c (hnode c hcm)).2.1
    unfold back_in_stock at hc
    rw [hn] at hc
    dsimp only at hc
    rcases hq : R.search s₁ ("email:" ++ p.email) with ⟨s₂, rq⟩
    rw [hq] at hc
    rcases rq with e | edges
    · dsimp only at hc
      rcases mem_snoc_elim hc with h | h
      · exact htr₁ c h
      · simp [h, MCall.isTagsAdd]
    · rcases edges with _ | ⟨cid, rest⟩
      · dsimp only at hc
        unfold create_branch at hc
        dsimp only at hc
        rcases hcr : R.create s₂
            ⟨p.email, [], if pyTruthy p.note then p.note else none,
              EMAIL_CONSENT_SUBSCRIBED⟩ with ⟨s₃, rc⟩
        rw [hcr] at hc
        rcases rc with e | ⟨ue, cid0⟩
        · dsimp only at hc
          rcases mem_snoc_elim hc with h | h
          · rcases mem_snoc_elim h with h' | h'
            · exact htr₁ c h'
            · simp [h', MCall.isTagsAdd]
          · simp [h, MCall.isTagsAdd]
        · rcases ue with _ | ⟨m, ms⟩ <;>
          · dsimp only at hc
            rcases mem_snoc_elim hc with h | h
            · rcases mem_snoc_elim h with h' | h'
              · exact htr₁ c h'
              · simp [h', MCall.isTagsAdd]
            · simp [h, MCall.isTagsAdd]
      · dsimp only at hc
        unfold update_branch tags_add_step at hc
        simp only [List.isEmpty_nil, if_true] at hc
        rcases hcu : R.consentUpdate s₂ cid with ⟨s₃, rc⟩
        rw [hcu] at hc
        rcases rc with e | ue
        · dsimp only at hc
          rcases mem_snoc_elim hc with h | h
          · rcases mem_snoc_elim h with h' | h'
            · exact htr₁ c h'
            · simp [h', MCall.isTagsAdd]
          · simp [h, MCall.isTagsAdd]
        · rcases ue with _ | ⟨m, ms⟩ <;>
          · dsimp only at hc
            rcases mem_snoc_elim hc with h | h
            · rcases mem_snoc_elim h with h' | h'
              · exact htr₁ c h'
              · simp [h', MCall.isTagsAdd]
            · simp [h, MCall.isTagsAdd]

/-- Claim C2 witness: the amended theorem applied at a remote that finds an
existing customer and a payload whose raw tag string `","` normalizes to the
empty list; the trace of the run contains no tag-merge call. -/
theorem empty_tags_behaviour_witness :
    MCall.isTagsAdd (MCall.customerSearch "email:kund@example.se") = false :=
  empty_tags_behaviour.2.2.2 Unit RemoteFound () ⟨"kund@example.se", ",", none⟩
    () [] rfl (MCall.customerSearch "email:kund@example.se") (by decide)

/-- Claim C3: normalizing `"10, backin-waitlist, 10"`, when the node lookup
resolves `gid://shopify/ProductVariant/10` to product handle `widget`,
yields exactly `["backin-waitlist", "backin|widget|10"]`: the literal tag
comes before the resolved derived tag and the duplicate reference collapses
to one entry. -/
theorem normalize_determinism :
    ∀ (σ : Type) (R : Remote σ) (s : σ) (tr : List MCall),
      R.node s "gid://shopify/ProductVariant/10" = (s, Except.ok (some "widget")) →
      normalize_tags R s tr "10, backin-waitlist, 10" =
        (s, tr ++ [MCall.nodeQuery "gid://shopify/ProductVariant/10",
                   MCall.nodeQuery "gid://shopify/ProductVariant/10"],
          Except.ok ["backin-waitlist", "backin|widget|10"]) := by
  intro σ R s tr h
  have hsg : splitGids (pySegs "10, backin-waitlist, 10") =
      (["backin-waitlist"],
        ["gid://shopify/ProductVariant/10", "gid://shopify/ProductVariant/10"]) := by
    decide
  have htag : ("backin|" ++ "widget" ++ "|" ++
      ((pySplit '/' "gid://shopify/ProductVariant/10").getLastD "")) =
      "backin|widget|10" := by decide
  have hdd : dedupFirst []
      (["backin-waitlist"] ++ ["backin|widget|10", "backin|widget|10"]) =
      ["backin-waitlist", "backin|widget|10"] := by decide
  unfold normalize_tags
  rw [hsg]
  dsimp only
  unfold resolve_all build_backin_tag
  rw [h]
  dsimp only
  unfold resolve_all build_backin_tag
  rw [h]
  dsimp only
  unfold resolve_all
  dsimp only
  rw [htag, hdd]
  simp [List.append_assoc]

/-- Claim C3 witness: the theorem applied at the concrete remote
`RemoteMiss`, whose node lookup returns handle `widget`. -/
theorem normalize_determinism_witness :
    normalize_tags RemoteMiss () [] "10, backin-waitlist, 10" =
      ((), [MCall.nodeQuery "gid://shopify/ProductVariant/10",
            MCall.nodeQuery "gid://shopify/ProductVariant/10"],
        Except.ok ["backin-waitlist", "backin|widget|10"]) :=
  normalize_determinism Unit RemoteMiss () [] rfl

/-- `resolve_all` aborts with `invalidVariant g` as soon as it reaches a
reference `g` whose node lookup returns a null node (all references before
`g` resolving, and the node handler leaving the state unchanged). -/
theorem resolve_all_invalid {σ : Type} (R : Remote σ) (s : σ) (g : String)
    (gs₂ : List String) (hnone : R.node s g = (s, Except.ok none)) :
    ∀ gs₁ : List String,
      (∀ g' ∈ gs₁, ∃ h, R.node s g' = (s, Except.ok (some h))) →
      ∀ tr : List MCall,
        (resolve_all R s tr (gs₁ ++ g :: gs₂)).2.2 =
          Except.error (Err.invalidVariant g) := by
  intro gs₁
  induction gs₁ with
  | nil =>
    intro _ tr
    simp only [List.nil_append]
    unfold resolve_all build_backin_tag
    rw [hnone]
  | cons g' gs₁ ih =>
    intro hok tr
    obtain ⟨h, hg'⟩ := hok g' (by simp)
    have hrest : ∀ x ∈ gs₁, ∃ h, R.node s x = (s, Except.ok (some h)) :=
      fun x hx => hok x (by simp [hx])
    simp only [List.cons_append]
    unfold resolve_all build_backin_tag
    rw [hg']
    dsimp only
    rcases hr : resolve_all R s (tr ++ [MCall.nodeQuery g']) (gs₁ ++ g :: gs₂)
      with ⟨s'', tr'', r⟩
    have hih := ih hrest (tr ++ [MCall.nodeQuery g'])
    rw [hr] at hih
    simp only at hih
    subst hih
    rfl

/-- Claim C6: when a variant reference in the tag string resolves to no node
(references before it resolving normally), the request fails with the
client-error (HTTP 400) invalid-variant error and the run issues no customer
mutation at all (no create, no tag merge, no consent update). -/
theorem invalid_variant_rejected :
    ∀ (σ : Type) (R : Remote σ) (s : σ) (p : Payload)
      (gs₁ gs₂ : List String) (g : String),
      (splitGids (pySegs p.tags)).2 = gs₁ ++ g :: gs₂ →
      (∀ g' ∈ gs₁, ∃ h, R.node s g' = (s, Except.ok (some h))) →
      R.node s g = (s, Except.ok none) →
      (back_in_stock R s p).2.2 = Except.error (Err.invalidVariant g) ∧
      (Err.invalidVariant g).status = 400 ∧
      ∀ c ∈ (back_in_stock R s p).2.1, c.isCustomerMutation = false := by
  intro σ R s p gs₁ gs₂ g hsplit hok hnone
  have hres := resolve_all_invalid R s g gs₂ hnone gs₁ hok []
  obtain ⟨ext, he, hnode⟩ := resolve_all_trace R (gs₁ ++ g :: gs₂) s []
  rcases hr : resolve_all R s [] (gs₁ ++ g :: gs₂) with ⟨s', tr', r⟩
  rw [hr] at hres he
  simp only at hres he
  subst hres
  have hnorm : normalize_tags R s [] p.tags =
      (s', tr', Except.error (Err.invalidVariant g)) := by
    unfold normalize_tags
    rw [hsplit, hr]
  have hmain : back_in_stock R s p = (s', tr', Except.error (Err.invalidVariant g)) := by
    unfold back_in_stock
    rw [hnorm]
  refine ⟨by rw [hmain], rfl, ?_⟩
  intro c hc
  rw [hmain] at hc
  dsimp only at hc
  rw [he] at hc
  simp only [List.nil_append] at hc
  exact (isNode_not_mutation c (hnode c hc)).1

/-- Claim C6 witness: the theorem applied at a concrete remote whose node
lookup returns a null node for `gid://shopify/ProductVariant/999`. -/
theorem invalid_variant_rejected_witness :
    (back_in_stock RemoteNodeNone ()
        ⟨"kund@example.se", "gid://shopify/ProductVariant/999", none⟩).2.2 =
      Except.error (Err.invalidVariant "gid://shopify/ProductVariant/999") ∧
    (Err.invalidVariant "gid://shopify/ProductVariant/999").status = 400 ∧
    MCall.isCustomerMutation
      (MCall.nodeQuery "gid://shopify/ProductVariant/999") = false :=
  have h := invalid_variant_rejected Unit RemoteNodeNone ()
    ⟨"kund@example.se", "gid://shopify/ProductVariant/999", none⟩
    [] [] "gid://shopify/ProductVariant/999" (by decide) (by simp) rfl
  ⟨h.1, h.2.1, h.2.2 (MCall.nodeQuery "gid://shopify/ProductVariant/999") (by decide)⟩

/-- Claim C10: the optional note influences only the create branch: an
empty-string note is omitted from the create input exactly as if it were
absent, and whenever a run issues no create mutation (in particular on the
whole update branch) its outcome is independent of the note. -/
theorem note_only_affects_create :
    (∀ (σ : Type) (R : Remote σ) (s : σ) (email tags : String),
      back_in_stock R s ⟨email, tags, some ""⟩ =
        back_in_stock R s ⟨email, tags, none⟩) ∧
    (∀ (σ : Type) (R : Remote σ) (s : σ) (email tags : String) (n₁ n₂ : Option String),
      (∀ c ∈ (back_in_stock R s ⟨email, tags, n₁⟩).2.1, c.isCreate = false) →
      back_in_stock R s ⟨email, tags, n₁⟩ = back_in_stock R s ⟨email, tags, n₂⟩) := by
  constructor
  · intro σ R s email tags
    unfold back_in_stock
    dsimp only
    rcases hn : normalize_tags R s [] tags with ⟨s₁, tr₁, r⟩
    cases r with
    | error e => rfl
    | ok tags' =>
      rcases hq : R.search s₁ ("email:" ++ email) with ⟨s₂, rq⟩
      rcases rq with e | edges
      · rfl
      · rcases edges with _ | ⟨cid, rest⟩
        · simp [create_branch, pyTruthy]
        · rfl
  · intro σ R s email tags n₁ n₂ h
    unfold back_in_stock at h ⊢
    dsimp only at h ⊢
    rcases hn : normalize_tags R s [] tags with ⟨s₁, tr₁, r⟩
    rw [hn] at h
    cases r with
    | error e => rfl
    | ok tags' =>
      dsimp only at h ⊢
      rcases hq : R.search s₁ ("email:" ++ email) with ⟨s₂, rq⟩
      rw [hq] at h
      rcases rq with e | edges
      · rfl
      · rcases edges with _ | ⟨cid, rest⟩
        · exfalso
          dsimp only at h
          unfold create_branch at h
          dsimp only at h
          rcases hcr : R.create s₂
              ⟨email, tags', if pyTruthy n₁ then n₁ else none,
                EMAIL_CONSENT_SUBSCRIBED⟩ with ⟨s₃, rc⟩
          rw [hcr] at h
          rcases rc with e | ⟨ue, cid0⟩
          · have := h (MCall.customerCreate
              ⟨email, tags', if pyTruthy n₁ then n₁ else none,
                EMAIL_CONSENT_SUBSCRIBED⟩) (by simp)
            simp [MCall.isCreate] at this
          · rcases ue with _ | ⟨m, ms⟩ <;>
            · have := h (MCall.customerCreate
                ⟨email, tags', if pyTruthy n₁ then n₁ else none,
                  EMAIL_CONSENT_SUBSCRIBED⟩) (by simp)
              simp [MCall.isCreate] at this
        · rfl

/-- Claim C10 witness: the theorem applied on the update branch at a
concrete remote that finds an existing customer — two different notes give
identical runs. -/
theorem note_only_affects_create_witness :
    back_in_stock RemoteFound () ⟨"kund@example.se", "vip", some "anteckning A"⟩ =
      back_in_stock RemoteFound () ⟨"kund@example.se", "vip", some "anteckning B"⟩ :=
  note_only_affects_create.2 Unit RemoteFound () "kund@example.se" "vip"
    (some "anteckning A") (some "anteckning B") (by decide)

/-! ### String lemmas for the bare-numeric / fully-qualified equivalence -/

/-- A digit character is not Python whitespace. -/
theorem digit_not_space {c : Char} (h : c.isDigit = true) : pyIsSpace c = false := by
  cases hc : pyIsSpace c
  · rfl
  · exfalso
    simp only [pyIsSpace, Bool.or_eq_true, decide_eq_true_eq] at hc
    rcases hc with ((((h1 | h1) | h1) | h1) | h1) | h1 <;>
      (subst h1; exact absurd h (by decide))

/-- `dropWhile` is the identity when no element satisfies the predicate. -/
theorem dropWhile_no {p : Char → Bool} :
    ∀ {cs : List Char}, (∀ c ∈ cs, p c = false) → cs.dropWhile p = cs := by
  intro cs h
  cases cs with
  | nil => rfl
  | cons c rest =>
    rw [List.dropWhile_cons]
    simp [h c (by simp)]

/-- Stripping is the identity on whitespace-free character lists. -/
theorem stripChars_no {cs : List Char} (h : ∀ c ∈ cs, pyIsSpace c = false) :
    stripChars cs = cs := by
  unfold stripChars
  rw [dropWhile_no h, dropWhile_no (fun c hc => h c (List.mem_reverse.mp hc)),
    List.reverse_reverse]

/-- Splitting a separator-free character list yields one segment. -/
theorem splitSepAux_no_sep {sep : Char} :
    ∀ (cs acc : List Char), (∀ c ∈ cs, ¬(c = sep)) →
      splitSepAux sep cs acc = [acc.reverse ++ cs] := by
  intro cs
  induction cs with
  | nil => intro acc _; simp [splitSepAux]
  | cons c rest ih =>
    intro acc h
    unfold splitSepAux
    rw [if_neg (h c (by simp))]
    rw [ih (c :: acc) (fun x hx => h x (by simp [hx]))]
    simp

/-- The splitter never returns an empty segment list. -/
theorem splitSepAux_ne_nil (sep : Char) :
    ∀ (cs acc : List Char), splitSepAux sep cs acc ≠ [] := by
  intro cs
  induction cs with
  | nil => intro acc; simp [splitSepAux]
  | cons c rest ih =>
    intro acc
    unfold splitSepAux
    by_cases hc : c = sep
    · simp [hc]
    · simpa [hc] using ih (c :: acc)

/-- `getLast?` ignores a head element in front of a non-empty list. -/
theorem getLast_opt_cons {α : Type} (a : α) {l : List α} (h : l ≠ []) :
    (a :: l).getLast? = l.getLast? := by
  cases l with
  | nil => exact absurd rfl h
  | cons b t => exact List.getLast?_cons_cons

/-- The defining equation of `splitSepAux` at a cons cell. -/
theorem splitSepAux_cons (sep c : Char) (rest acc : List Char) :
    splitSepAux sep (c :: rest) acc =
      if c = sep then acc.reverse :: splitSepAux sep rest []
      else splitSepAux sep rest (c :: acc) := rfl

/-- The last segment of a split is unaffected by everything before the last
occurrence of the separator. -/
theorem splitSepAux_after_sep {sep : Char} (ys : List Char) :
    ∀ (xs acc : List Char),
      (splitSepAux sep (xs ++ sep :: ys) acc).getLast? =
        (splitSepAux sep ys []).getLast? := by
  intro xs
  induction xs with
  | nil =>
    intro acc
    simp only [List.nil_append]
    rw [splitSepAux_cons, if_pos rfl]
    exact getLast_opt_cons _ (splitSepAux_ne_nil sep ys [])
  | cons x xs ih =>
    intro acc
    simp only [List.cons_append]
    rw [splitSepAux_cons]
    by_cases hx : x = sep
    · rw [if_pos hx]
      rw [getLast_opt_cons _ (splitSepAux_ne_nil sep (xs ++ sep :: ys) [])]
      exact ih []
    · rw [if_neg hx]
      exact ih (x :: acc)

/-- `getLast?` commutes with `map`. -/
theorem getLast_opt_map {α β : Type} (f : α → β) :
    ∀ l : List α, (l.map f).getLast? = (l.getLast?).map f := by
  intro l
  induction l with
  | nil => rfl
  | cons a l ih =>
    cases l with
    | nil => rfl
    | cons b t => simpa [List.getLast?_cons_cons] using ih

/-- A string whose characters contain no comma and no whitespace is its own
single tag segment. -/
theorem pySegs_single {d : String} (hne : d.data ≠ [])
    (hnc : ∀ c ∈ d.data, ¬(c = ','))
    (hns : ∀ c ∈ d.data, pyIsSpace c = false) : pySegs d = [d] := by
  unfold pySegs pySplit
  rw [splitSepAux_no_sep d.data [] hnc]
  have hstrip : pyStrip d = d := by
    unfold pyStrip
    rw [stripChars_no hns]
  have hmk : (⟨d.data⟩ : String) = d := rfl
  have hdne : d ≠ "" := fun he => hne (by rw [he])
  have hbne : (d != "") = true := by simpa using hdne
  simp only [List.reverse_nil, List.nil_append, List.map_cons, List.map_nil, hmk, hstrip]
  simp [hbne]

/-- Dropping an expected head from that head followed by a remainder. -/
theorem dropHead_append : ∀ (ps cs : List Char), dropHead ps (ps ++ cs) = some cs := by
  intro ps
  induction ps with
  | nil => intro cs; rfl
  | cons p ps ih =>
    intro cs
    simp only [List.cons_append]
    unfold dropHead
    rw [if_pos rfl]
    exact ih cs

/-- The digit characters of a `NUM_RX` match. -/
theorem numFullmatch_digits {d : String} (hd : numFullmatch d = true) :
    d.data ≠ [] ∧ ∀ c ∈ d.data, c.isDigit = true := by
  unfold numFullmatch at hd
  simp only [Bool.and_eq_true, Bool.not_eq_true', List.all_eq_true] at hd
  obtain ⟨h1, h2⟩ := hd
  refine ⟨fun he => ?_, fun c hc => h2 c hc⟩
  rw [he] at h1
  exact absurd h1 (by decide)

/-- The fully-qualified rewrite of a bare numeric matches `GID_RX`. -/
theorem gidFullmatch_gidOf {d : String} (hd : numFullmatch d = true) :
    gidFullmatch (gidOf d) = true := by
  obtain ⟨h1, h2⟩ := numFullmatch_digits hd
  unfold gidFullmatch gidOf
  rw [String.data_append,
    show "gid://shopify/ProductVariant/".data = gidHead from rfl, dropHead_append]
  simp only [Bool.and_eq_true, Bool.not_eq_true', List.all_eq_true]
  refine ⟨?_, fun c hc => h2 c hc⟩
  cases hc : d.data with
  | nil => exact absurd hc h1
  | cons c cs => rfl

/-- A bare numeric string does not match `GID_RX`. -/
theorem gidFullmatch_num {d : String} (hd : numFullmatch d = true) :
    gidFullmatch d = false := by
  obtain ⟨h1, h2⟩ := numFullmatch_digits hd
  unfold gidFullmatch
  cases hc : d.data with
  | nil => exact absurd hc h1
  | cons c cs =>
    have hcd : c.isDigit = true := h2 c (by rw [hc]; simp)
    have hhead : gidHead = 'g' :: "id://shopify/ProductVariant/".data := rfl
    rw [hhead]
    unfold dropHead
    rw [if_neg (fun he => absurd hcd (by subst he; decide))]

/-- A bare numeric string is its own single segment. -/
theorem pySegs_num {d : String} (hd : numFullmatch d = true) : pySegs d = [d] := by
  obtain ⟨h1, h2⟩ := numFullmatch_digits hd
  refine pySegs_single h1 ?_ ?_
  · intro c hc he
    exact absurd (h2 c hc) (by subst he; decide)
  · intro c hc
    exact digit_not_space (h2 c hc)

/-- The fully-qualified form of a bare numeric is its own single segment. -/
theorem pySegs_gidOf {d : String} (hd : numFullmatch d = true) :
    pySegs (gidOf d) = [gidOf d] := by
  obtain ⟨h1, h2⟩ := numFullmatch_digits hd
  have hdata : (gidOf d).data = gidHead ++ d.data := String.data_append _ _
  have hg1 : ∀ c ∈ gidHead, ¬(c = ',') := by decide
  have hg2 : ∀ c ∈ gidHead, pyIsSpace c = false := by decide
  refine pySegs_single ?_ ?_ ?_
  · rw [hdata]
    simp [gidHead]
  · intro c hc
    rw [hdata] at hc
    rcases List.mem_append.mp hc with h | h
    · exact hg1 c h
    · intro he
      exact absurd (h2 c h) (by subst he; decide)
  · intro c hc
    rw [hdata] at hc
    rcases List.mem_append.mp hc with h | h
    · exact hg2 c h
    · exact digit_not_space (h2 c h)

/-- The last `/`-segment of the fully-qualified form is the bare numeric. -/
theorem lastSeg_gidOf {d : String} (hd : numFullmatch d = true) :
    (pySplit '/' (gidOf d)).getLastD "" = d := by
  obtain ⟨h1, h2⟩ := numFullmatch_digits hd
  have hdata : (gidOf d).data = "gid://shopify/ProductVariant".data ++ '/' :: d.data := by
    rw [gidOf, String.data_append]
    rfl
  unfold pySplit
  rw [List.getLastD_eq_getLast?, getLast_opt_map, hdata,
    splitSepAux_after_sep d.data "gid://shopify/ProductVariant".data []]
  rw [splitSepAux_no_sep d.data []
    (fun c hc he => absurd (h2 c hc) (by subst he; decide))]
  rfl

/-- Claim C8: a bare numeric tag segment and its fully-qualified
`gid://shopify/ProductVariant/<digits>` form normalize identically — the
bare form is rewritten to the fully-qualified form, both are resolved by the
node lookup keyed on that form, and both produce the derived tag
`backin|<handle>|<digits>`. -/
theorem gid_and_bare_equivalent :
    ∀ (σ : Type) (R : Remote σ) (s : σ) (tr : List MCall) (d : String),
      numFullmatch d = true →
      (normalize_tags R s tr d = normalize_tags R s tr (gidOf d)) ∧
      (∀ (h : String) (s' : σ),
        R.node s (gidOf d) = (s', Except.ok (some h)) →
        normalize_tags R s tr d =
          (s', tr ++ [MCall.nodeQuery (gidOf d)],
            Except.ok ["backin|" ++ h ++ "|" ++ d])) := by
  intro σ R s tr d hd
  have hgids_d : splitGids (pySegs d) = ([], [gidOf d]) := by
    rw [pySegs_num hd]
    unfold splitGids
    rw [gidFullmatch_num hd]
    simp only [Bool.false_eq_true, if_false, hd, if_true]
    rfl
  have hgids_g : splitGids (pySegs (gidOf d)) = ([], [gidOf d]) := by
    rw [pySegs_gidOf hd]
    unfold splitGids
    rw [gidFullmatch_gidOf hd]
    rfl
  constructor
  · unfold normalize_tags
    rw [hgids_d, hgids_g]
  · intro h s' hnode
    unfold normalize_tags
    rw [hgids_d]
    dsimp only
    unfold resolve_all build_backin_tag
    rw [hnode]
    dsimp only
    unfold resolve_all
    dsimp only
    rw [lastSeg_gidOf hd]
    simp [dedupFirst]

/-- Claim C8 witness: `"42"` and `"gid://shopify/ProductVariant/42"`
normalize to the same single derived tag `backin|widget|42` at the concrete
remote `RemoteMiss`. -/
theorem gid_and_bare_equivalent_witness :
    normalize_tags RemoteMiss () [] "42" =
      normalize_tags RemoteMiss () [] (gidOf "42") ∧
    normalize_tags RemoteMiss () [] "42" =
      ((), [MCall.nodeQuery (gidOf "42")], Except.ok ["backin|widget|42"]) :=
  have h := gid_and_bare_equivalent Unit RemoteMiss () [] "42" (by decide)
  ⟨h.1, h.2 "widget" () rfl⟩

/-! ### Lemmas about the mock remote directory (for the idempotence claim) -/

/-- Defining equation of the mock node handler. -/
theorem Mock_node_eq (w : World) (g : String) :
    Mock.node w g = (w, Except.ok (w.catalog.lookup g)) := rfl

/-- Defining equation of the mock search handler. -/
theorem Mock_search_raw (w : World) (q : String) :
    Mock.search w q =
      (w, Except.ok
        (((w.customers.filter (fun c => ("email:" ++ c.email) == q)).map
            (fun c => c.id)).take 1)) := rfl

/-- Defining equation of the mock tag-merge handler. -/
theorem Mock_tagsAdd_eq (w : World) (cid : String) (tags : List String) :
    Mock.tagsAdd w cid tags =
      ({ w with customers := w.customers.map (setTags cid tags) }, Except.ok []) := rfl

/-- Defining equation of the mock consent handler. -/
theorem Mock_consent_eq (w : World) (cid : String) :
    Mock.consentUpdate w cid =
      ({ w with customers := w.customers.map (setConsent cid) }, Except.ok []) := rfl

/-- Defining equation of the mock create handler. -/
theorem Mock_create_eq (w : World) (ci : CreateInput) :
    Mock.create w ci =
      ({ w with
          customers := w.customers ++
            [⟨"gid://shopify/Customer/" ++ toString w.nextId, ci.email, ci.tags,
              ci.consent⟩]
          nextId := w.nextId + 1 },
        Except.ok ([], "gid://shopify/Customer/" ++ toString w.nextId)) := rfl

/-- The mock node handler never changes the world. -/
theorem resolve_all_mock_state (gs : List String) :
    ∀ (w : World) (tr : List MCall), (resolve_all Mock w tr gs).1 = w := by
  induction gs with
  | nil => intro w tr; rfl
  | cons g gs ih =>
    intro w tr
    unfold resolve_all build_backin_tag
    rw [Mock_node_eq]
    cases hx : w.catalog.lookup g with
    | none => rfl
    | some h =>
      dsimp only
      rcases hr : resolve_all Mock w (tr ++ [MCall.nodeQuery g]) gs with ⟨w', tr', r⟩
      have hw := ih w (tr ++ [MCall.nodeQuery g])
      rw [hr] at hw
      cases r <;> exact hw

/-- The result of variant resolution against the mock depends only on the
catalog. -/
theorem resolve_all_mock_catalog (gs : List String) :
    ∀ (w w' : World) (tr tr' : List MCall), w'.catalog = w.catalog →
      (resolve_all Mock w' tr' gs).2.2 = (resolve_all Mock w tr gs).2.2 := by
  induction gs with
  | nil => intro w w' tr tr' _; rfl
  | cons g gs ih =>
    intro w w' tr tr' hcat
    unfold resolve_all build_backin_tag
    rw [Mock_node_eq, Mock_node_eq, hcat]
    cases hx : w.catalog.lookup g with
    | none => rfl
    | some h =>
      dsimp only
      rcases hr : resolve_all Mock w' (tr' ++ [MCall.nodeQuery g]) gs with ⟨a, b, r1⟩
      rcases hr2 : resolve_all Mock w (tr ++ [MCall.nodeQuery g]) gs with ⟨a2, b2, r2⟩
      have heq := ih w w' (tr ++ [MCall.nodeQuery g]) (tr' ++ [MCall.nodeQuery g]) hcat
      rw [hr, hr2] at heq
      simp only at heq
      subst heq
      cases r1 <;> rfl

/-- `normalize_tags` against the mock never changes the world. -/
theorem normalize_mock_state (w : World) (tr : List MCall) (raw : String) :
    (normalize_tags Mock w tr raw).1 = w := by
  unfold normalize_tags
  rcases hr : resolve_all Mock w tr (splitGids (pySegs raw)).2 with ⟨w', tr', r⟩
  have hw := resolve_all_mock_state (splitGids (pySegs raw)).2 w tr
  rw [hr] at hw
  cases r <;> exact hw

/-- The result of `normalize_tags` against the mock depends only on the
catalog. -/
theorem normalize_mock_catalog (w w' : World) (tr tr' : List MCall) (raw : String)
    (hcat : w'.catalog = w.catalog) :
    (normalize_tags Mock w' tr' raw).2.2 = (normalize_tags Mock w tr raw).2.2 := by
  unfold normalize_tags
  rcases hr : resolve_all Mock w' tr' (splitGids (pySegs raw)).2 with ⟨a, b, r1⟩
  rcases hr2 : resolve_all Mock w tr (splitGids (pySegs raw)).2 with ⟨a2, b2, r2⟩
  have heq := resolve_all_mock_catalog (splitGids (pySegs raw)).2 w w' tr tr' hcat
  rw [hr, hr2] at heq
  simp only at heq
  subst heq
  cases r1 <;> rfl

/-- Left cancellation for string append. -/
theorem str_append_cancel {a b c : String} (h : a ++ b = a ++ c) : b = c := by
  have hd := congrArg String.data h
  rw [String.data_append, String.data_append] at hd
  have hbc := List.append_cancel_left hd
  cases b
  cases c
  simp_all

/-- The mock search predicate on the query `email:<e>` coincides with plain
email comparison. -/
theorem emailPred (c : Customer) (e : String) :
    (("email:" ++ c.email) == ("email:" ++ e)) = (c.email == e) := by
  cases hb : c.email == e with
  | false =>
    have hne : c.email ≠ e := by simpa using hb
    have hne2 : ("email:" ++ c.email) ≠ ("email:" ++ e) :=
      fun h => hne (str_append_cancel h)
    simpa using hne2
  | true =>
    have he : c.email = e := by simpa using hb
    rw [he]
    simp

/-- What the mock search returns: the id of the first customer whose email
matches, as a singleton list (or the empty list). -/
theorem mock_search_eq (w : World) (e : String) :
    Mock.search w ("email:" ++ e) =
      (w, Except.ok (match firstByEmail w e with
        | none => []
        | some c => [c.id])) := by
  have hlist : ∀ l : List Customer,
      ((l.filter (fun c => ("email:" ++ c.email) == ("email:" ++ e))).map
        (fun c => c.id)).take 1 =
        (match l.find? (fun c => c.email == e) with
          | none => []
          | some c => [c.id]) := by
    intro l
    induction l with
    | nil => rfl
    | cons c t ih =>
      rw [List.filter_cons, emailPred]
      cases hb : c.email == e with
      | true => simp [List.find?_cons, hb]
      | false => simpa [List.find?_cons, hb] using ih
  rw [Mock_search_raw]
  unfold firstByEmail
  exact congrArg
    (fun l => ((w : World), (Except.ok l : Except Err (List String))))
    (hlist w.customers)

theorem setTags_email (cid : String) (tags : List String) (c : Customer) :
    (setTags cid tags c).email = c.email := by
  unfold setTags
  split <;> rfl

theorem setTags_id (cid : String) (tags : List String) (c : Customer) :
    (setTags cid tags c).id = c.id := by
  unfold setTags
  split <;> rfl

theorem setConsent_email (cid : String) (c : Customer) :
    (setConsent cid c).email = c.email := by
  unfold setConsent
  split <;> rfl

theorem setConsent_subscribes (cid : String) (c : Customer) (h : c.id = cid) :
    (setConsent cid c).consent = EMAIL_CONSENT_SUBSCRIBED := by
  unfold setConsent
  rw [if_pos (by simp [h])]

/-- `find?` on an email predicate commutes with an email-preserving map. -/
theorem find_email_map (f : Customer → Customer) (hf : ∀ c, (f c).email = c.email)
    (e : String) : ∀ l : List Customer,
      (l.map f).find? (fun c => c.email == e) =
        (l.find? (fun c => c.email == e)).map f := by
  intro l
  induction l with
  | nil => rfl
  | cons c t ih =>
    simp only [List.map_cons]
    cases hb : c.email == e with
    | true =>
      have hfc : ((f c).email == e) = true := by rw [hf]; exact hb
      simp [List.find?_cons, hfc, hb]
    | false =>
      have hfc : ((f c).email == e) = false := by rw [hf]; exact hb
      simp [List.find?_cons, hfc, hb, ih]

/-- `find?` over an append. -/
theorem find_append (p : Customer → Bool) : ∀ (l₁ l₂ : List Customer),
    (l₁ ++ l₂).find? p =
      (match l₁.find? p with
        | some c => some c
        | none => l₂.find? p) := by
  intro l₁ l₂
  induction l₁ with
  | nil => rfl
  | cons c t ih =>
    simp only [List.cons_append]
    cases hb : p c with
    | true => simp [List.find?_cons, hb]
    | false => simp [List.find?_cons, hb, ih]

/-- The found-customer branch against the mock: it reports `updated`,
preserves the customer count and the catalog, and leaves the first customer
of any email mapped by an email-preserving function that subscribes the
customer whose id was updated. -/
theorem mock_update_props (w : World) (tr : List MCall) (cid : String)
    (tags : List String) :
    (update_branch Mock w tr cid tags).2.2 = Except.ok (UpsertResult.updated cid) ∧
    (update_branch Mock w tr cid tags).1.customers.length = w.customers.length ∧
    (update_branch Mock w tr cid tags).1.catalog = w.catalog ∧
    ∃ f : Customer → Customer,
      (∀ c, (f c).email = c.email) ∧
      (∀ c, c.id = cid → (f c).consent = EMAIL_CONSENT_SUBSCRIBED) ∧
      ∀ e, firstByEmail ((update_branch Mock w tr cid tags).1) e =
        (firstByEmail w e).map f := by
  unfold update_branch tags_add_step
  cases he : tags.isEmpty with
  | true =>
    simp only [he, if_true]
    rw [Mock_consent_eq]
    refine ⟨rfl, by simp, rfl, setConsent cid, setConsent_email cid,
      fun c hc => setConsent_subscribes cid c hc, ?_⟩
    intro e
    unfold firstByEmail
    exact find_email_map (setConsent cid) (setConsent_email cid) e w.customers
  | false =>
    simp only [he, Bool.false_eq_true, if_false]
    rw [Mock_tagsAdd_eq]
    dsimp only
    rw [Mock_consent_eq]
    refine ⟨rfl, by simp, rfl,
      fun c => setConsent cid (setTags cid tags c), ?_, ?_, ?_⟩
    · intro c
      rw [setConsent_email, setTags_email]
    · intro c hc
      exact setConsent_subscribes cid _ (by rw [setTags_id]; exact hc)
    · intro e
      unfold firstByEmail
      dsimp only
      rw [List.map_map]
      exact find_email_map _ (fun c => by
        simp only [Function.comp]
        rw [setConsent_email, setTags_email]) e w.customers

/-- The new-customer branch against the mock: it reports `created` with the
fresh id, appends exactly one customer record carrying the request's email,
tags and the forced subscription, and preserves the catalog. -/
theorem mock_create_props (w : World) (tr : List MCall) (p : Payload)
    (tags : List String) :
    (create_branch Mock w tr p tags).2.2 =
      Except.ok (UpsertResult.created ("gid://shopify/Customer/" ++ toString w.nextId)) ∧
    (create_branch Mock w tr p tags).1.customers =
      w.customers ++ [⟨"gid://shopify/Customer/" ++ toString w.nextId, p.email, tags,
        EMAIL_CONSENT_SUBSCRIBED⟩] ∧
    (create_branch Mock w tr p tags).1.catalog = w.catalog := by
  unfold create_branch
  dsimp only
  rw [Mock_create_eq]
  exact ⟨rfl, rfl, rfl⟩

/-- One upsert against the mock when a customer with the email exists:
the run reports `updated` for that customer, creates no record, preserves
the catalog, and leaves the customer subscribed. -/
theorem mock_call_found (w : World) (p : Payload) (c : Customer)
    (tags : List String) (tr₀ : List MCall)
    (hn : normalize_tags Mock w [] p.tags = (w, tr₀, Except.ok tags))
    (hf : firstByEmail w p.email = some c) :
    (back_in_stock Mock w p).2.2 = Except.ok (UpsertResult.updated c.id) ∧
    (back_in_stock Mock w p).1.customers.length = w.customers.length ∧
    (back_in_stock Mock w p).1.catalog = w.catalog ∧
    subscribedAt (back_in_stock Mock w p).1 p.email := by
  unfold back_in_stock
  rw [hn]
  dsimp only
  rw [mock_search_eq w p.email, hf]
  dsimp only
  obtain ⟨h1, h2, h3, f, hfe, hfc, hff⟩ := mock_update_props w
    (tr₀ ++ [MCall.customerSearch ("email:" ++ p.email)]) c.id tags
  refine ⟨h1, h2, h3, f c, ?_, hfc c rfl⟩
  rw [hff p.email, hf]
  rfl

/-- One upsert against the mock when no customer with the email exists:
the run reports `created` with the fresh id, adds exactly one record,
preserves the catalog, and leaves the new customer subscribed. -/
theorem mock_call_missing (w : World) (p : Payload) (tags : List String)
    (tr₀ : List MCall)
    (hn : normalize_tags Mock w [] p.tags = (w, tr₀, Except.ok tags))
    (hf : firstByEmail w p.email = none) :
    (back_in_stock Mock w p).2.2 =
      Except.ok (UpsertResult.created ("gid://shopify/Customer/" ++ toString w.nextId)) ∧
    (back_in_stock Mock w p).1.customers.length = w.customers.length + 1 ∧
    (back_in_stock Mock w p).1.catalog = w.catalog ∧
    subscribedAt (back_in_stock Mock w p).1 p.email := by
  unfold back_in_stock
  rw [hn]
  dsimp only
  rw [mock_search_eq w p.email, hf]
  dsimp only
  obtain ⟨h1, h2, h3⟩ := mock_create_props w
    (tr₀ ++ [MCall.customerSearch ("email:" ++ p.email)]) p tags
  refine ⟨h1, ?_, h3, ?_⟩
  · rw [h2]
    simp
  · refine ⟨⟨"gid://shopify/Customer/" ++ toString w.nextId, p.email, tags,
      EMAIL_CONSENT_SUBSCRIBED⟩, ?_, rfl⟩
    unfold firstByEmail at hf ⊢
    rw [h2, find_append, hf]
    simp [List.find?_cons]

/-- Claim C7: calling upsert twice in a row against the mock directory with
the same payload leaves the (first) customer with the request's email
SUBSCRIBED at single-opt-in after each call, and the second call takes the
update branch: it returns `updated` for that same customer and creates no
second customer record. -/
theorem upsert_idempotent (w w₁ : World) (tr₁ : List MCall) (p : Payload)
    (r₁ : UpsertResult)
    (h₁ : back_in_stock Mock w p = (w₁, tr₁, Except.ok r₁)) :
    subscribedAt w₁ p.email ∧
    ∃ c₁ w₂ tr₂, firstByEmail w₁ p.email = some c₁ ∧
      back_in_stock Mock w₁ p = (w₂, tr₂, Except.ok (UpsertResult.updated c₁.id)) ∧
      w₂.customers.length = w₁.customers.length ∧
      subscribedAt w₂ p.email := by
  rcases hn : normalize_tags Mock w [] p.tags with ⟨w₀, tr₀, rn⟩
  have hw₀ : w₀ = w := by
    have hst := normalize_mock_state w [] p.tags
    rw [hn] at hst
    exact hst
  rw [hw₀] at hn
  clear hw₀
  cases rn with
  | error e =>
    exfalso
    unfold back_in_stock at h₁
    rw [hn] at h₁
    simp at h₁
  | ok tags =>
    have hfirst : subscribedAt w₁ p.email ∧ w₁.catalog = w.catalog := by
      cases hf : firstByEmail w p.email with
      | some c =>
        obtain ⟨q1, q2, q3, q4⟩ := mock_call_found w p c tags tr₀ hn hf
        rw [h₁] at q3 q4
        exact ⟨q4, q3⟩
      | none =>
        obtain ⟨q1, q2, q3, q4⟩ := mock_call_missing w p tags tr₀ hn hf
        rw [h₁] at q3 q4
        exact ⟨q4, q3⟩
    obtain ⟨hsub₁, hcat₁⟩ := hfirst
    obtain ⟨c₁, hc₁, hcons₁⟩ := hsub₁
    rcases hn₁ : normalize_tags Mock w₁ [] p.tags with ⟨w₁', tr₀', rn₁⟩
    have hw₁' : w₁' = w₁ := by
      have hst := normalize_mock_state w₁ [] p.tags
      rw [hn₁] at hst
      exact hst
    rw [hw₁'] at hn₁
    clear hw₁'
    have hrn₁ : rn₁ = Except.ok tags := by
      have hca := normalize_mock_catalog w w₁ [] [] p.tags hcat₁
      rw [hn, hn₁] at hca
      simpa using hca
    subst hrn₁
    obtain ⟨q1, q2, q3, q4⟩ := mock_call_found w₁ p c₁ tags tr₀' hn₁ hc₁
    rcases hb₂ : back_in_stock Mock w₁ p with ⟨w₂, tr₂, r₂⟩
    rw [hb₂] at q1 q2 q3 q4
    simp only at q1 q2 q3 q4
    refine ⟨⟨c₁, hc₁, hcons₁⟩, c₁, w₂, tr₂, hc₁, ?_, q2, q4⟩
    rw [q1]

/-- Claim C7 witness: starting from the empty mock world, the first call
creates the customer and the theorem yields the second call's update-branch
behaviour at that concrete world. -/
theorem upsert_idempotent_witness :
    subscribedAt
      ⟨[⟨"gid://shopify/Customer/0", "kund@example.se", ["vip"],
        EMAIL_CONSENT_SUBSCRIBED⟩], 1, []⟩ "kund@example.se" ∧
    ∃ c₁ w₂ tr₂,
      firstByEmail
        ⟨[⟨"gid://shopify/Customer/0", "kund@example.se", ["vip"],
          EMAIL_CONSENT_SUBSCRIBED⟩], 1, []⟩ "kund@example.se" = some c₁ ∧
      back_in_stock Mock
        ⟨[⟨"gid://shopify/Customer/0", "kund@example.se", ["vip"],
          EMAIL_CONSENT_SUBSCRIBED⟩], 1, []⟩
        ⟨"kund@example.se", "vip", none⟩ =
          (w₂, tr₂, Except.ok (UpsertResult.updated c₁.id)) ∧
      w₂.customers.length = 1 ∧
      subscribedAt w₂ "kund@example.se" :=
  upsert_idempotent ⟨[], 0, []⟩
    ⟨[⟨"gid://shopify/Customer/0", "kund@example.se", ["vip"],
      EMAIL_CONSENT_SUBSCRIBED⟩], 1, []⟩
    [MCall.customerSearch "email:kund@example.se",
     MCall.customerCreate ⟨"kund@example.se", ["vip"], none, EMAIL_CONSENT_SUBSCRIBED⟩]
    ⟨"kund@example.se", "vip", none⟩
    (UpsertResult.created "gid://shopify/Customer/0") rfl

end BIS

